import Mathlib

/-!
# Shallow embedding of `gdax_order_book_scraper.py`

The script `gdax_order_book_scraper.py` defines a class `GDAXOrderBookScraper`
that polls the GDAX order-book endpoint for a list of products, buffers the
snapshots in `self.order_book_data`, and every `SCRAPES_PER_CSV` successful
iterations writes per-product CSV files.

Modelling choices:

* `datetime` values are modelled as `Nat` POSIX seconds.  The string
  `current_time.isoformat(' ')` that is prepended to every CSV row is modelled
  by the tagged field `Cell.date t` (the isoformat string of time `t`); the
  other CSV cells are `Cell.str s`.  The filename
  `str(current_time.timestamp())` is modelled by the decimal digit string
  `timeDigits t` of the POSIX time.
* An order-book row coming from the exchange is either a Python list of cells
  (`Entry.fields`) or some other object lacking an `insert` method
  (`Entry.other`), on which `row.insert(0, _)` raises `AttributeError`.
* The network call `_get_order_book_data` (after its retry wrapper) is an
  oracle `fetch : String → Except FetchError OrderBook`; `ConnectionError`
  and `json.decoder.JSONDecodeError` are its two error constructors.
* File output is modelled as the ordered list of write events
  `(path, contents)` produced by one call of `write_order_book_csv`; since
  every file is opened with mode `'w'` (truncating), the resulting file
  system maps each path to the contents of the *last* event for that path
  (`finalFs`).
-/

/-- `RATE_LIMIT = 1.0 / 3.0 + 0.5` (line 39 of the source). -/
def RATE_LIMIT : ℚ := 1 / 3 + 1 / 2

/-- `MAX_RETRIES = 5` (line 42 of the source). -/
def MAX_RETRIES : Nat := 5

/-- `FREQUENCY = 60` (line 45 of the source). -/
def FREQUENCY : ℚ := 60

/-- `SCRAPES_PER_CSV = 5` (line 48 of the source). -/
def SCRAPES_PER_CSV : Nat := 5

/-- `DEFAULT_OUTPUT_DIR = 'data'` (line 51 of the source). -/
def DEFAULT_OUTPUT_DIR : String := "data"

/-- One cell of a CSV row: either the isoformat string of the POSIX time `t`
(what `self.current_time.isoformat(' ')` produces at time `t`) or an ordinary
string cell (price, size, order count, order type). -/
inductive Cell where
  | date (t : Nat)
  | str (s : String)
deriving DecidableEq, Repr

/-- A row of the order book as returned by the exchange: either a Python list
of cells, or some other object without an `insert` method (on which
`row.insert(0, x)` raises `AttributeError`). -/
inductive Entry where
  | fields (xs : List Cell)
  | other (repr : String)
deriving DecidableEq, Repr

/-- The payload returned by `get_product_order_book(product, level=2)`:
a dict with a `'bids'` list and an `'asks'` list. -/
structure OrderBook where
  bids : List Entry
  asks : List Entry
deriving DecidableEq, Repr

/-- The two exceptions caught at line 117 of `_run_iteration`. -/
inductive FetchError where
  | connectionError
  | jsonDecodeError
deriving DecidableEq, Repr

/--
`prepare_order_book_row` (lines 181-211).  At iteration time `t` it computes
`datetime_iso = self.current_time.isoformat(' ')`, then tries
`row.insert(0, order_type); row.insert(0, datetime_iso)` and returns the row,
giving `[datetime_iso, order_type] ++ row`; if the row has no `insert`
(`AttributeError`) it logs a warning and returns `None`.
-/
def prepare_order_book_row (t : Nat) (row : Entry) (order_type : String) :
    Option (List Cell) :=
  match row with
  | .fields xs => some (Cell.date t :: Cell.str order_type :: xs)
  | .other _ => none

/--
The sequence of rows written to one CSV file for one product's snapshot
(lines 164-178): the `order_types` dict iterates `'bids'` (flag `'b'`) then
`'asks'` (flag `'a'`), and for each order-book row `writer.writerow` receives
exactly what `prepare_order_book_row` returned, `None` included.
-/
def fileRows (t : Nat) (ob : OrderBook) : List (Option (List Cell)) :=
  ob.bids.map (fun row => prepare_order_book_row t row "b") ++
    ob.asks.map (fun row => prepare_order_book_row t row "a")

/-- A CSV output path: `os.path.join(csv_directory, product, filename)` where
`filename = str(self.current_time.timestamp())`, modelled by the POSIX time
whose decimal digits form the file's name. -/
structure CsvPath where
  dir : String
  product : String
  time : Nat
deriving DecidableEq, Repr

/-- A snapshot of one iteration: the insertion-ordered dict
`order_book_data_all` mapping each product to its order book. -/
abbrev Snapshot := List (String × OrderBook)

/--
`write_order_book_csv` (lines 137-178) as the ordered list of file write
events it performs: for each buffered snapshot (outer loop, line 144), for
each product in it (line 146), it opens
`csv_directory/product/str(current_time.timestamp())` with mode `'w'` and
writes that snapshot's prepared rows.
-/
def write_order_book_csv (csv_directory : String) (t : Nat)
    (order_book_data : List Snapshot) : List (CsvPath × List (Option (List Cell))) :=
  order_book_data.flatMap (fun snapshot =>
    snapshot.map (fun pb =>
      (⟨csv_directory, pb.1, t⟩, fileRows t pb.2)))

/-- The file system after a list of write events, each opening its path with
mode `'w'` (truncate): the content of a path is that of the last event
writing it, if any. -/
def finalFs (events : List (CsvPath × List (Option (List Cell)))) :
    CsvPath → Option (List (Option (List Cell))) :=
  events.foldl (fun fs e => fun q => if q = e.1 then some e.2 else fs q)
    (fun _ => none)

/-- Python dict assignment `d[k] = v` on an insertion-ordered association
list: an existing key keeps its position and gets the new value, a new key is
appended. -/
def dictInsert (k : String) (v : OrderBook) : Snapshot → Snapshot
  | [] => [(k, v)]
  | (k', v') :: rest =>
      if k' = k then (k, v) :: rest else (k', v') :: dictInsert k v rest

/-- Python subscripting `t[0]` on a tuple or list value, which raises
`TypeError` when the value is not subscriptable and `IndexError` when it is
empty; here only applied to tuples, modelled as lists of their elements. -/
def subscript0 : List OrderBook → Option OrderBook
  | [] => none
  | x :: _ => some x

/-- The two early-`return False` exits of `_run_iteration`: the
`except (ConnectionError, JSONDecodeError)` at line 117 and the
`except TypeError` at line 123. -/
inductive IterError where
  | connError
  | typeError
deriving DecidableEq, Repr

/--
The product loop of `_run_iteration` (lines 106-124): for each product it
evaluates `self._get_order_book_data(product),` — a one-element tuple, by the
trailing comma — returning `False` on `ConnectionError`/`JSONDecodeError`,
then stores `order_book_data[0]` into the dict `order_book_data_all`,
returning `False` on `TypeError`.
-/
def fetch_loop (fetch : String → Except FetchError OrderBook) :
    List String → Snapshot → Except IterError Snapshot
  | [], acc => .ok acc
  | p :: ps, acc =>
      match fetch p with
      | .error _ => .error .connError
      | .ok v =>
          match subscript0 [v] with
          | none => .error .typeError
          | some x => fetch_loop fetch ps (dictInsert p x acc)

/-- The mutable attributes of a `GDAXOrderBookScraper` instance used by the
iteration loop. -/
structure ScraperState where
  products : List String
  order_book_data : List Snapshot
  current_time : Nat
  csv_directory : String
deriving DecidableEq, Repr

/-- The state built by `__init__` (lines 54-61) at start time `t0`. -/
def initial_state (t0 : Nat) : ScraperState :=
  { products := [], order_book_data := [], current_time := t0,
    csv_directory := DEFAULT_OUTPUT_DIR }

/-- `add_product` (lines 64-65). -/
def add_product (s : ScraperState) (product : String) : ScraperState :=
  { s with products := s.products ++ [product] }

/-- The observable outcome of `_run_iteration`: `success flushed` for a
`return True` (recording whether `write_order_book_csv` ran), and the two
`return False` exits. -/
inductive IterResult where
  | success (flushed : Bool)
  | skipConn
  | skipType
deriving DecidableEq, Repr

/--
`_run_iteration` (lines 95-134) at wall-clock time `now`, with the decorated
`_get_order_book_data` given as the oracle `fetch`.  It sets
`self.current_time`, runs the product loop, appends the snapshot dict to
`self.order_book_data`, and when the buffer has reached `SCRAPES_PER_CSV`
calls `write_order_book_csv` and resets the buffer.  Returns the outcome, the
new state, and the file write events performed.
-/
def run_iteration (fetch : String → Except FetchError OrderBook) (now : Nat)
    (s : ScraperState) :
    IterResult × ScraperState × List (CsvPath × List (Option (List Cell))) :=
  let s := { s with current_time := now }
  match fetch_loop fetch s.products [] with
  | .error .connError => (.skipConn, s, [])
  | .error .typeError => (.skipType, s, [])
  | .ok order_book_data_all =>
      let buffer := s.order_book_data ++ [order_book_data_all]
      if SCRAPES_PER_CSV ≤ buffer.length then
        (.success true, { s with order_book_data := [] },
          write_order_book_csv s.csv_directory now buffer)
      else
        (.success false, { s with order_book_data := buffer }, [])

/-- The states reached by running `_run_iteration` once per element of
`steps`, each step providing that iteration's fetch oracle and wall-clock
time (the `while running` loop of `run`, lines 79-92). -/
def run_trace (steps : List ((String → Except FetchError OrderBook) × Nat))
    (s : ScraperState) : ScraperState :=
  steps.foldl (fun st step => (run_iteration step.1 step.2 st).2.1) s

/-- Decimal digits of `n`, most significant first, with explicit fuel (the
fuel `n + 1` used by `timeDigits` always suffices, see `decDigits_fuel`). -/
def decDigits : Nat → Nat → List Nat
  | 0, _ => []
  | fuel + 1, n => if n < 10 then [n] else decDigits fuel (n / 10) ++ [n % 10]

/-- The decimal digit string of the POSIX time `n`: the model of the filename
`str(self.current_time.timestamp())` (line 153 of the source). -/
def timeDigits (n : Nat) : List Nat :=
  decDigits (n + 1) n

/-- Lexicographic (filename) order on digit strings: the order in which a
directory listing sorts the CSV filenames. -/
def digitsLt : List Nat → List Nat → Bool
  | [], [] => false
  | [], _ :: _ => true
  | _ :: _, [] => false
  | a :: as, b :: bs => decide (a < b) || (decide (a = b) && digitsLt as bs)

/--
Modelled from the spec: the `connection_retry` decorator applied to
`_get_order_book_data` comes from the repository's `utils` module, which is
not under `src/`; the spec describes it as "a generic retry-with-backoff
wrapper around the network call" giving "bounded retry on transient network
failures", and the decorated call is
`@connection_retry(MAX_RETRIES, RATE_LIMIT)`.  With `fuel` further attempts
allowed after the current one, `attempt k` the outcome of the `k`-th call of
the wrapped function, and `backoff` the sleep between attempts: a successful
call returns at once, a failed one sleeps `backoff` seconds and retries while
attempts remain, and the last failure propagates.  The result records the
outcome, the number of calls made, and the total time slept.
-/
def retry_loop (backoff : ℚ) (attempt : Nat → Except FetchError OrderBook) :
    Nat → Nat → Except FetchError OrderBook × Nat × ℚ
  | 0, k => (attempt k, 1, 0)
  | fuel + 1, k =>
      match attempt k with
      | .ok v => (.ok v, 1, 0)
      | .error _ =>
          let r := retry_loop backoff attempt fuel (k + 1)
          (r.1, r.2.1 + 1, r.2.2 + backoff)

/--
Modelled from the spec: `_get_order_book_data` (lines 227-236) wrapped in
`@connection_retry(MAX_RETRIES, RATE_LIMIT)`, making at most `MAX_RETRIES`
calls of `client.get_product_order_book(product, level=2)` with a backoff of
`RATE_LIMIT` seconds between consecutive calls.
-/
def get_order_book_data (attempt : Nat → Except FetchError OrderBook) :
    Except FetchError OrderBook × Nat × ℚ :=
  retry_loop RATE_LIMIT attempt (MAX_RETRIES - 1) 0

/-- Python's `%` on a positive divisor: `x % y = x - y * floor(x / y)`. -/
def pymod (x y : ℚ) : ℚ :=
  x - y * ⌊x / y⌋

/-- The sleep computed by `run` (lines 85-92):
`elapsed_time = (time.time() - start_time) % frequency` and
`sleep_time = frequency - elapsed_time` with `frequency = FREQUENCY`. -/
def sleep_time (start_time current : ℚ) : ℚ :=
  FREQUENCY - pymod (current - start_time) FREQUENCY

/-- Python dict lookup `d[k]` on the insertion-ordered association list. -/
def dictGet (k : String) : Snapshot → Option OrderBook
  | [] => none
  | (k', v) :: rest => if k' = k then some v else dictGet k rest

/-- A sample level-2 order book used by the concrete witnesses. -/
def sampleOrderBook : OrderBook :=
  { bids := [Entry.fields [Cell.str "6500.01", Cell.str "1.2", Cell.str "3"]],
    asks := [Entry.fields [Cell.str "6500.02", Cell.str "0.5", Cell.str "1"]] }

/-- A fetch oracle that always succeeds with `sampleOrderBook`. -/
def sampleFetch : String → Except FetchError OrderBook :=
  fun _ => .ok sampleOrderBook

/-- The scraper state after `__init__` and `add_product('BTC-USD')`. -/
def sampleState : ScraperState :=
  add_product (initial_state 0) "BTC-USD"

/-- A fetch oracle that always raises `ConnectionError`. -/
def failFetch : String → Except FetchError OrderBook :=
  fun _ => .error .connectionError

/-- Whether an order-book row is a list of exactly three cells
(price, size, number of orders), as the level-2 endpoint returns. -/
def entry_is_triple : Entry → Bool
  | .fields [_, _, _] => true
  | _ => false

/-- A level-2 order book whose every row is a `[price, size, num-orders]`
list. -/
def well_formed_entries (ob : OrderBook) : Prop :=
  ∀ e ∈ ob.bids ++ ob.asks, entry_is_triple e = true

instance (ob : OrderBook) : Decidable (well_formed_entries ob) :=
  List.decidableBAll _ _

/-- The one-snapshot, one-product buffer used by the C2 witness. -/
def sampleBuffer : List Snapshot := [[("BTC-USD", sampleOrderBook)]]

/-- An order book whose single bid row is not a list (e.g. a string), on
which `row.insert` raises `AttributeError`. -/
def oddOrderBook : OrderBook :=
  { bids := [Entry.other "not-a-list"], asks := [] }

/-- Whether a CSV cell is an ordinary string cell (not a date). -/
def plain_cell : Cell → Bool
  | .date _ => false
  | .str _ => true

/-- Whether an order-book row contains no date cell (true of exchange data:
prices, sizes and counts). -/
def entry_plain : Entry → Bool
  | .fields xs => xs.all plain_cell
  | .other _ => true

/-- An order book none of whose entries contains a date cell. -/
def plain_entries (ob : OrderBook) : Prop :=
  ∀ e ∈ ob.bids ++ ob.asks, entry_plain e = true

instance (ob : OrderBook) : Decidable (plain_entries ob) :=
  List.decidableBAll _ _

/-- The order book of the last buffered snapshot that contains product `p`. -/
def lastSnapshotOb (p : String) (buffer : List Snapshot) : Option OrderBook :=
  (buffer.filterMap (fun snap => dictGet p snap)).getLast?

/-- The order book of the first buffered snapshot in the C1 demonstration. -/
def obA : OrderBook :=
  { bids := [Entry.fields [Cell.str "100.0", Cell.str "1.0", Cell.str "1"]],
    asks := [] }

/-- The order book of the later snapshots in the C1 demonstration. -/
def obB : OrderBook :=
  { bids := [Entry.fields [Cell.str "200.0", Cell.str "2.0", Cell.str "1"]],
    asks := [] }

/-- A snapshot holding `obA` for BTC-USD. -/
def snapA : Snapshot := [("BTC-USD", obA)]

/-- A snapshot holding `obB` for BTC-USD. -/
def snapB : Snapshot := [("BTC-USD", obB)]

/-- A scraper state one successful iteration away from a flush: four
buffered snapshots, the first of them `snapA`. -/
def preFlushState : ScraperState :=
  { products := ["BTC-USD"], order_book_data := [snapA, snapB, snapB, snapB],
    current_time := 0, csv_directory := "data" }

/-- A fetch oracle returning `obB`. -/
def fetchB : String → Except FetchError OrderBook := fun _ => .ok obB

/-! ## Helper lemmas -/

theorem retry_loop_spec (backoff : ℚ) (attempt : Nat → Except FetchError OrderBook) :
    ∀ fuel k,
      1 ≤ (retry_loop backoff attempt fuel k).2.1 ∧
      (retry_loop backoff attempt fuel k).2.1 ≤ fuel + 1 ∧
      (retry_loop backoff attempt fuel k).2.2 =
        (((retry_loop backoff attempt fuel k).2.1 - 1 : Nat) : ℚ) * backoff := by
  intro fuel
  induction fuel with
  | zero => intro k; simp [retry_loop]
  | succ n ih =>
      intro k
      obtain ⟨h1, h2, h3⟩ := ih (k + 1)
      cases h : attempt k with
      | ok v => simp [retry_loop, h]
      | error e =>
          simp only [retry_loop, h]
          refine ⟨by omega, by omega, ?_⟩
          rw [h3]
          have hc : ((retry_loop backoff attempt n (k + 1)).2.1 + 1 - 1 : Nat) =
              ((retry_loop backoff attempt n (k + 1)).2.1 - 1 : Nat) + 1 := by omega
          rw [hc]
          push_cast
          ring

/-! ## C4: bounded retry -/

/-- C4.  Every network fetch of a product's order book goes through the
retry-with-backoff wrapper `@connection_retry(MAX_RETRIES, RATE_LIMIT)`:
for every behaviour of the wrapped call, the number of attempts made is
between 1 and `MAX_RETRIES = 5`, consecutive attempts are separated by a
backoff of `RATE_LIMIT = 1/3 + 0.5` seconds (total sleep
`(attempts - 1) * RATE_LIMIT`), so only a bounded number of attempts happens
before the error propagates to the caller. -/
theorem bounded_retry (attempt : Nat → Except FetchError OrderBook) :
    1 ≤ (get_order_book_data attempt).2.1 ∧
    (get_order_book_data attempt).2.1 ≤ MAX_RETRIES ∧
    MAX_RETRIES = 5 ∧
    (get_order_book_data attempt).2.2 =
      (((get_order_book_data attempt).2.1 - 1 : Nat) : ℚ) * RATE_LIMIT ∧
    RATE_LIMIT = 1 / 3 + 1 / 2 := by
  obtain ⟨h1, h2, h3⟩ := retry_loop_spec RATE_LIMIT attempt (MAX_RETRIES - 1) 0
  refine ⟨h1, ?_, rfl, h3, rfl⟩
  simpa [MAX_RETRIES] using h2

/-! ## C6: sleep-scheduler bound -/

/-- C6.  For every start time and current time with `start_time ≤ current`,
the sleep duration `FREQUENCY - ((current - start_time) % FREQUENCY)`
computed by `run` is strictly positive and at most `FREQUENCY = 60`, so
`time.sleep` always receives a non-negative argument. -/
theorem sleep_time_pos_le (start_time current : ℚ) (h : start_time ≤ current) :
    0 < sleep_time start_time current ∧ sleep_time start_time current ≤ FREQUENCY := by
  unfold sleep_time pymod FREQUENCY
  set x : ℚ := current - start_time with hx
  have h60 : (0 : ℚ) < 60 := by norm_num
  constructor
  · have hlt : x / 60 < ⌊x / 60⌋ + 1 := Int.lt_floor_add_one _
    have : x < 60 * (⌊x / 60⌋ + 1) := by
      rw [mul_comm]
      exact (div_lt_iff₀ h60).mp hlt
    linarith
  · have hle : (⌊x / 60⌋ : ℚ) ≤ x / 60 := Int.floor_le _
    have : 60 * (⌊x / 60⌋ : ℚ) ≤ x := by
      rw [mul_comm]
      exact (le_div_iff₀ h60).mp hle
    linarith

/-- Witness for C6 at `start_time = 0`, `current = 90`. -/
theorem sleep_time_pos_le_witness :
    (0 : ℚ) ≤ 90 ∧ 0 < sleep_time 0 90 ∧ sleep_time 0 90 ≤ FREQUENCY :=
  ⟨by norm_num, sleep_time_pos_le 0 90 (by norm_num)⟩

/-! ## C8: the TypeError branch is unreachable -/

theorem dictGet_dictInsert_self (k : String) (v : OrderBook) (d : Snapshot) :
    dictGet k (dictInsert k v d) = some v := by
  induction d with
  | nil => simp [dictInsert, dictGet]
  | cons hd tl ih =>
      obtain ⟨k', v'⟩ := hd
      by_cases h : k' = k
      · simp [dictInsert, dictGet, h]
      · simp [dictInsert, dictGet, h, ih]

theorem dictGet_dictInsert_ne (k k' : String) (v : OrderBook) (d : Snapshot)
    (h : k ≠ k') : dictGet k (dictInsert k' v d) = dictGet k d := by
  induction d with
  | nil => simp [dictInsert, dictGet, Ne.symm h]
  | cons hd tl ih =>
      obtain ⟨k'', v''⟩ := hd
      by_cases h2 : k'' = k'
      · subst h2
        simp [dictInsert, dictGet, Ne.symm h]
      · simp [dictInsert, dictGet, h2, ih]

theorem fetch_loop_no_typeError (fetch : String → Except FetchError OrderBook) :
    ∀ ps acc, fetch_loop fetch ps acc ≠ .error .typeError := by
  intro ps
  induction ps with
  | nil => intro acc; simp [fetch_loop]
  | cons p ps ih =>
      intro acc
      cases h : fetch p with
      | ok v => simpa [fetch_loop, h, subscript0] using ih (dictInsert p v acc)
      | error e => simp [fetch_loop, h]

theorem fetch_loop_notMem (fetch : String → Except FetchError OrderBook) :
    ∀ ps acc d p, fetch_loop fetch ps acc = .ok d → p ∉ ps →
      dictGet p d = dictGet p acc := by
  intro ps
  induction ps with
  | nil => intro acc d p h _; simp [fetch_loop] at h; simp [h]
  | cons p' ps ih =>
      intro acc d p h hmem
      cases hf : fetch p' with
      | ok v =>
          simp only [fetch_loop, hf, subscript0] at h
          have hne : p ≠ p' := fun he => hmem (he ▸ List.mem_cons_self p' ps)
          have := ih (dictInsert p' v acc) d p h
            (fun hc => hmem (List.mem_cons_of_mem _ hc))
          rw [this, dictGet_dictInsert_ne p p' v acc hne]
      | error e => simp [fetch_loop, hf] at h

theorem fetch_loop_dictGet (fetch : String → Except FetchError OrderBook) :
    ∀ ps acc d, fetch_loop fetch ps acc = .ok d →
      ∀ p ∈ ps, ∀ ob, fetch p = .ok ob → dictGet p d = some ob := by
  intro ps
  induction ps with
  | nil => intro acc d _ p hp; exact absurd hp (List.not_mem_nil p)
  | cons p' ps ih =>
      intro acc d h p hp ob hob
      cases hf : fetch p' with
      | ok v =>
          simp only [fetch_loop, hf, subscript0] at h
          by_cases hmem : p ∈ ps
          · exact ih (dictInsert p' v acc) d h p hmem ob hob
          · have hpe : p = p' := by
              rcases List.mem_cons.mp hp with h1 | h1
              · exact h1
              · exact absurd h1 hmem
            subst hpe
            have hv : v = ob := by
              rw [hf] at hob
              exact (Except.ok.injEq _ _).mp hob.symm ▸ rfl
            rw [fetch_loop_notMem fetch ps (dictInsert p v acc) d p h hmem,
              dictGet_dictInsert_self, hv]
      | error e => simp [fetch_loop, hf] at h

/-- C8.  The expression `self._get_order_book_data(product),` at line 114 is
a one-element tuple (trailing comma), so subscripting it with `[0]` at
line 122 never raises `TypeError`: `_run_iteration` never takes the
`except TypeError: return False` exit, and on a successful product loop
`order_book_data_all[product]` is exactly the value the fetch returned for
that product. -/
theorem unreachable_type_error (fetch : String → Except FetchError OrderBook)
    (now : Nat) (s : ScraperState) :
    (run_iteration fetch now s).1 ≠ IterResult.skipType ∧
    (∀ d, fetch_loop fetch s.products [] = .ok d →
      ∀ p ∈ s.products, ∀ ob, fetch p = .ok ob → dictGet p d = some ob) := by
  constructor
  · cases h : fetch_loop fetch s.products [] with
    | ok d =>
        simp only [run_iteration, h]
        split <;> simp
    | error e =>
        cases e with
        | connError => simp [run_iteration, h]
        | typeError => exact absurd h (fetch_loop_no_typeError fetch s.products [])
  · intro d h p hp ob hob
    exact fetch_loop_dictGet fetch s.products [] d h p hp ob hob

/-- Witness for C8 on the one-product state with an always-succeeding
fetch. -/
theorem unreachable_type_error_witness :
    (run_iteration sampleFetch 100 sampleState).1 ≠ IterResult.skipType ∧
    dictGet "BTC-USD" [("BTC-USD", sampleOrderBook)] = some sampleOrderBook := by
  obtain ⟨h1, h2⟩ := unreachable_type_error sampleFetch 100 sampleState
  refine ⟨h1, h2 [("BTC-USD", sampleOrderBook)] rfl "BTC-USD"
    (by simp [sampleState, add_product, initial_state]) sampleOrderBook rfl⟩

/-! ## C3: skip-iteration atomicity -/

theorem fetch_loop_error (fetch : String → Except FetchError OrderBook) :
    ∀ ps acc, (∃ p ∈ ps, ∃ e, fetch p = .error e) →
      fetch_loop fetch ps acc = .error .connError := by
  intro ps
  induction ps with
  | nil =>
      rintro acc ⟨p, hp, _⟩
      exact absurd hp (List.not_mem_nil p)
  | cons p' ps ih =>
      rintro acc ⟨p, hp, e, he⟩
      cases hf : fetch p' with
      | error e' => simp [fetch_loop, hf]
      | ok v =>
          have hne : p ≠ p' := by
            intro hc
            rw [hc, hf] at he
            exact Except.noConfusion he
          have hmem : p ∈ ps := by
            rcases List.mem_cons.mp hp with h1 | h1
            · exact absurd h1 hne
            · exact h1
          simp only [fetch_loop, hf, subscript0]
          exact ih (dictInsert p' v acc) ⟨p, hmem, e, he⟩

/-- C3.  If fetching the order book of any tracked product raises
`ConnectionError` or `JSONDecodeError`, `_run_iteration` returns `False`,
the buffer `order_book_data` is exactly what it was before the iteration
(data fetched for earlier products in the same iteration only ever lived in
the local dict and is dropped), and no CSV file is written. -/
theorem skip_iteration_atomic (fetch : String → Except FetchError OrderBook)
    (now : Nat) (s : ScraperState)
    (h : ∃ p ∈ s.products, ∃ e, fetch p = .error e) :
    (run_iteration fetch now s).1 = IterResult.skipConn ∧
    ((run_iteration fetch now s).2.1).order_book_data = s.order_book_data ∧
    (run_iteration fetch now s).2.2 = [] := by
  have hf := fetch_loop_error fetch s.products [] h
  simp [run_iteration, hf]

/-- Witness for C3: a failing fetch on the one-product state. -/
theorem skip_iteration_atomic_witness :
    (run_iteration failFetch 100 sampleState).1 = IterResult.skipConn ∧
    ((run_iteration failFetch 100 sampleState).2.1).order_book_data =
      sampleState.order_book_data ∧
    (run_iteration failFetch 100 sampleState).2.2 = [] :=
  skip_iteration_atomic failFetch 100 sampleState
    ⟨"BTC-USD", by simp [sampleState, add_product, initial_state],
      .connectionError, rfl⟩

/-! ## C5: buffer-bound invariant -/

theorem run_iteration_step (fetch : String → Except FetchError OrderBook)
    (now : Nat) (s : ScraperState)
    (h : s.order_book_data.length < SCRAPES_PER_CSV) :
    ((run_iteration fetch now s).2.1).order_book_data.length < SCRAPES_PER_CSV ∧
    ((run_iteration fetch now s).1 = IterResult.success true ↔
      (∃ d, fetch_loop fetch s.products [] = .ok d) ∧
      s.order_book_data.length + 1 = SCRAPES_PER_CSV) ∧
    ((run_iteration fetch now s).1 = IterResult.success true →
      ((run_iteration fetch now s).2.1).order_book_data = []) := by
  cases hf : fetch_loop fetch s.products [] with
  | error e => cases e <;> simp [run_iteration, hf, h]
  | ok d =>
      by_cases hlen : SCRAPES_PER_CSV ≤ s.order_book_data.length + 1
      · have heq : s.order_book_data.length + 1 = SCRAPES_PER_CSV := by omega
        simp [run_iteration, hf, hlen, heq, SCRAPES_PER_CSV]
      · have hlt : s.order_book_data.length + 1 < SCRAPES_PER_CSV := by omega
        have hne : ¬s.order_book_data.length + 1 = SCRAPES_PER_CSV := by omega
        simp only [run_iteration, hf]
        simp [hlen, hlt, hne]

theorem run_trace_inv :
    ∀ steps (s : ScraperState), s.order_book_data.length < SCRAPES_PER_CSV →
      (run_trace steps s).order_book_data.length < SCRAPES_PER_CSV := by
  intro steps
  induction steps with
  | nil => intro s h; simpa [run_trace] using h
  | cons st rest ih =>
      intro s h
      have hstep := (run_iteration_step st.1 st.2 s h).1
      have : run_trace (st :: rest) s =
          run_trace rest (run_iteration st.1 st.2 s).2.1 := by
        simp [run_trace]
      rw [this]
      exact ih _ hstep

/-- C5.  Starting from the freshly initialised scraper, the buffer
`order_book_data` never exceeds `SCRAPES_PER_CSV = 5` entries (it stays below
5 between iterations); a CSV flush is triggered exactly when a successful
iteration brings the buffer length to `SCRAPES_PER_CSV`; and immediately
after a flush the buffer is empty. -/
theorem buffer_bound_invariant :
    (∀ steps t0,
      (run_trace steps (initial_state t0)).order_book_data.length < SCRAPES_PER_CSV) ∧
    (∀ (fetch : String → Except FetchError OrderBook) (now : Nat) (s : ScraperState),
      s.order_book_data.length < SCRAPES_PER_CSV →
      ((run_iteration fetch now s).2.1).order_book_data.length < SCRAPES_PER_CSV ∧
      ((run_iteration fetch now s).1 = IterResult.success true ↔
        (∃ d, fetch_loop fetch s.products [] = .ok d) ∧
        s.order_book_data.length + 1 = SCRAPES_PER_CSV) ∧
      ((run_iteration fetch now s).1 = IterResult.success true →
        ((run_iteration fetch now s).2.1).order_book_data = [])) :=
  ⟨fun steps t0 =>
    run_trace_inv steps (initial_state t0) (by simp [initial_state, SCRAPES_PER_CSV]),
    fun fetch now s h => run_iteration_step fetch now s h⟩

/-- Witness for C5: a one-step trace from the initial state, and one
iteration from the one-product state. -/
theorem buffer_bound_invariant_witness :
    (run_trace [(sampleFetch, 1)] (initial_state 0)).order_book_data.length <
      SCRAPES_PER_CSV ∧
    ((run_iteration sampleFetch 100 sampleState).2.1).order_book_data.length <
      SCRAPES_PER_CSV := by
  obtain ⟨ha, hb⟩ := buffer_bound_invariant
  exact ⟨ha [(sampleFetch, 1)] 0,
    (hb sampleFetch 100 sampleState (by decide)).1⟩

/-! ## C2: CSV row format -/

theorem entry_is_triple_elim (e : Entry) (h : entry_is_triple e = true) :
    ∃ p sz c, e = Entry.fields [p, sz, c] := by
  cases e with
  | other s => simp [entry_is_triple] at h
  | fields xs =>
      match xs with
      | [p, sz, c] => exact ⟨p, sz, c, rfl⟩
      | [] => simp [entry_is_triple] at h
      | [_] => simp [entry_is_triple] at h
      | [_, _] => simp [entry_is_triple] at h
      | _ :: _ :: _ :: _ :: _ => simp [entry_is_triple] at h

theorem fileRows_format (t : Nat) (ob : OrderBook) (h : well_formed_entries ob) :
    ∀ row ∈ fileRows t ob, ∃ p sz c,
      (Entry.fields [p, sz, c] ∈ ob.bids ∧
        row = some [Cell.date t, Cell.str "b", p, sz, c]) ∨
      (Entry.fields [p, sz, c] ∈ ob.asks ∧
        row = some [Cell.date t, Cell.str "a", p, sz, c]) := by
  intro row hrow
  rcases List.mem_append.mp hrow with hb | ha
  · obtain ⟨e, he, heq⟩ := List.mem_map.mp hb
    obtain ⟨p, sz, c, hpe⟩ :=
      entry_is_triple_elim e (h e (List.mem_append.mpr (Or.inl he)))
    subst hpe
    exact ⟨p, sz, c, Or.inl ⟨he, heq.symm⟩⟩
  · obtain ⟨e, he, heq⟩ := List.mem_map.mp ha
    obtain ⟨p, sz, c, hpe⟩ :=
      entry_is_triple_elim e (h e (List.mem_append.mpr (Or.inr he)))
    subst hpe
    exact ⟨p, sz, c, Or.inr ⟨he, heq.symm⟩⟩

/-- C2.  When the buffered order books are well formed (each entry a
`[price, size, num-orders]` triple), every write event of
`write_order_book_csv` is the prepared rows of one product's snapshot, and
every row written has exactly the form
`[timestamp, order_type, price, size, order_count]`: the isoformat of the
current time, then `'b'` for a row from the `'bids'` list or `'a'` for a row
from the `'asks'` list, then the entry's three fields unchanged and in their
original order. -/
theorem csv_row_format (dir : String) (t : Nat) (buffer : List Snapshot)
    (hw : ∀ snap ∈ buffer, ∀ pb ∈ snap, well_formed_entries pb.2) :
    ∀ ev ∈ write_order_book_csv dir t buffer,
      ∃ snap ∈ buffer, ∃ pb ∈ snap,
        ev = (⟨dir, pb.1, t⟩, fileRows t pb.2) ∧
        ∀ row ∈ fileRows t pb.2, ∃ p sz c,
          (Entry.fields [p, sz, c] ∈ pb.2.bids ∧
            row = some [Cell.date t, Cell.str "b", p, sz, c]) ∨
          (Entry.fields [p, sz, c] ∈ pb.2.asks ∧
            row = some [Cell.date t, Cell.str "a", p, sz, c]) := by
  intro ev hev
  simp only [write_order_book_csv, List.mem_flatMap, List.mem_map] at hev
  obtain ⟨snap, hsnap, pb, hpb, heq⟩ := hev
  exact ⟨snap, hsnap, pb, hpb, heq.symm,
    fileRows_format t pb.2 (hw snap hsnap pb hpb)⟩

/-- Witness for C2 at the sample buffer and the event it produces. -/
theorem csv_row_format_witness :
    ∃ snap ∈ sampleBuffer, ∃ pb ∈ snap,
      ((⟨"data", "BTC-USD", 7⟩ : CsvPath), fileRows 7 sampleOrderBook) =
        (⟨"data", pb.1, 7⟩, fileRows 7 pb.2) ∧
      ∀ row ∈ fileRows 7 pb.2, ∃ p sz c,
        (Entry.fields [p, sz, c] ∈ pb.2.bids ∧
          row = some [Cell.date 7, Cell.str "b", p, sz, c]) ∨
        (Entry.fields [p, sz, c] ∈ pb.2.asks ∧
          row = some [Cell.date 7, Cell.str "a", p, sz, c]) :=
  csv_row_format "data" 7 sampleBuffer (by decide)
    (⟨"data", "BTC-USD", 7⟩, fileRows 7 sampleOrderBook) (by decide)

/-! ## C10: in-place row preparation and None pass-through -/

/-- C10.  `prepare_order_book_row` prepends the order type and then the date
to a list row and returns that same (mutated) row; on a row without `insert`
it returns `None`; and `write_order_book_csv` still emits that `None` to
`csv.writer.writerow` instead of skipping the row. -/
theorem prepare_row_none_passthrough :
    (∀ (t : Nat) (ot : String) (xs : List Cell),
      prepare_order_book_row t (Entry.fields xs) ot =
        some (Cell.date t :: Cell.str ot :: xs)) ∧
    (∀ (t : Nat) (ot r : String),
      prepare_order_book_row t (Entry.other r) ot = none) ∧
    (∀ (dir : String) (t : Nat) (buffer : List Snapshot) snap
      (pb : String × OrderBook) (r : String),
      snap ∈ buffer → pb ∈ snap → Entry.other r ∈ pb.2.bids →
      (⟨dir, pb.1, t⟩, fileRows t pb.2) ∈ write_order_book_csv dir t buffer ∧
      none ∈ fileRows t pb.2) := by
  refine ⟨fun t ot xs => rfl, fun t ot r => rfl, ?_⟩
  intro dir t buffer snap pb r hsnap hpb hr
  constructor
  · simp only [write_order_book_csv, List.mem_flatMap, List.mem_map]
    exact ⟨snap, hsnap, pb, hpb, rfl⟩
  · simp only [fileRows, List.mem_append, List.mem_map]
    exact Or.inl ⟨Entry.other r, hr, rfl⟩

/-- Witness for C10: a concrete list row, a concrete non-list row, and a
buffer whose flushed file receives `None`. -/
theorem prepare_row_none_passthrough_witness :
    prepare_order_book_row 3 (Entry.fields [Cell.str "1"]) "b" =
      some [Cell.date 3, Cell.str "b", Cell.str "1"] ∧
    prepare_order_book_row 3 (Entry.other "not-a-list") "a" = none ∧
    (⟨"data", "BTC-USD", 3⟩, fileRows 3 oddOrderBook) ∈
      write_order_book_csv "data" 3 [[("BTC-USD", oddOrderBook)]] ∧
    none ∈ fileRows 3 oddOrderBook := by
  obtain ⟨h1, h2, h3⟩ := prepare_row_none_passthrough
  exact ⟨h1 3 "b" [Cell.str "1"], h2 3 "a" "not-a-list",
    h3 "data" 3 [[("BTC-USD", oddOrderBook)]] [("BTC-USD", oddOrderBook)]
      ("BTC-USD", oddOrderBook) "not-a-list" (by decide) (by decide) (by decide)⟩

/-! ## C9: flush-time stamping and truncation -/

theorem foldl_upd_eq (events : List (CsvPath × List (Option (List Cell)))) :
    ∀ (init : CsvPath → Option (List (Option (List Cell)))) (q : CsvPath),
      events.foldl (fun fs e => fun q' => if q' = e.1 then some e.2 else fs q') init q =
        match events.reverse.find? (fun e => decide (e.1 = q)) with
        | some e => some e.2
        | none => init q := by
  induction events with
  | nil => intro init q; rfl
  | cons e es ih =>
      intro init q
      rw [List.foldl_cons, ih, List.reverse_cons, List.find?_append]
      cases hf : es.reverse.find? (fun e => decide (e.1 = q)) with
      | some e' => simp
      | none =>
          simp only [Option.none_or]
          by_cases he : e.1 = q
          · rw [List.find?_cons_of_pos _ (by simp [he])]
            simp [he.symm]
          · rw [List.find?_cons_of_neg _ (by simp [he])]
            have he' : ¬(q = e.1) := fun h => he h.symm
            simp [he']

theorem finalFs_eq (events : List (CsvPath × List (Option (List Cell))))
    (q : CsvPath) :
    finalFs events q =
      (events.reverse.find? (fun e => decide (e.1 = q))).map Prod.snd := by
  unfold finalFs
  rw [foldl_upd_eq]
  cases events.reverse.find? (fun e => decide (e.1 = q)) <;> simp

theorem finalFs_ne_none_iff (events : List (CsvPath × List (Option (List Cell))))
    (q : CsvPath) :
    finalFs events q ≠ none ↔ ∃ ev ∈ events, ev.1 = q := by
  rw [finalFs_eq]
  simp [Option.ne_none_iff_isSome, List.find?_isSome, List.mem_reverse]

theorem finalFs_append (a b : List (CsvPath × List (Option (List Cell))))
    (q : CsvPath) :
    finalFs (a ++ b) q = (finalFs b q).or (finalFs a q) := by
  rw [finalFs_eq, finalFs_eq, finalFs_eq, List.reverse_append, List.find?_append]
  cases b.reverse.find? (fun e => decide (e.1 = q)) <;> simp

theorem write_single (dir : String) (t : Nat) (snap : Snapshot) :
    write_order_book_csv dir t [snap] =
      snap.map (fun pb => (⟨dir, pb.1, t⟩, fileRows t pb.2)) := by
  simp [write_order_book_csv]

theorem finalFs_write_single (dir : String) (t : Nat) (p : String) :
    ∀ snap : Snapshot, (snap.map Prod.fst).Nodup →
      finalFs (write_order_book_csv dir t [snap]) ⟨dir, p, t⟩ =
        (dictGet p snap).map (fileRows t) := by
  intro snap
  induction snap with
  | nil => intro _; rfl
  | cons kv rest ih =>
      intro hnod
      obtain ⟨k, ob⟩ := kv
      obtain ⟨hk, hrest⟩ := List.nodup_cons.mp hnod
      rw [write_single] at *
      rw [List.map_cons]
      have hsplit :
          ((⟨dir, k, t⟩ : CsvPath), fileRows t ob) ::
              rest.map (fun pb => ((⟨dir, pb.1, t⟩ : CsvPath), fileRows t pb.2)) =
            [((⟨dir, k, t⟩ : CsvPath), fileRows t ob)] ++
              rest.map (fun pb => ((⟨dir, pb.1, t⟩ : CsvPath), fileRows t pb.2)) := rfl
      rw [hsplit, finalFs_append]
      by_cases hkp : k = p
      · subst hkp
        have hnone :
            finalFs (rest.map (fun pb => ((⟨dir, pb.1, t⟩ : CsvPath), fileRows t pb.2)))
              ⟨dir, k, t⟩ = none := by
          by_contra hc
          obtain ⟨ev, hev, hev1⟩ := (finalFs_ne_none_iff _ _).mp hc
          obtain ⟨pb, hpb, heq⟩ := List.mem_map.mp hev
          rw [← heq] at hev1
          simp only [CsvPath.mk.injEq] at hev1
          obtain ⟨-, hpk, -⟩ := hev1
          have hmem : pb.1 ∈ rest.map Prod.fst := List.mem_map_of_mem Prod.fst hpb
          rw [hpk] at hmem
          exact hk hmem
        rw [hnone]
        simp [finalFs, dictGet]
      · have hne : ¬((⟨dir, p, t⟩ : CsvPath) = ⟨dir, k, t⟩) := by
          simp [CsvPath.mk.injEq]
          intro h
          exact absurd h.symm hkp
        have hone : finalFs [((⟨dir, k, t⟩ : CsvPath), fileRows t ob)] ⟨dir, p, t⟩ = none := by
          simp [finalFs, hne]
        rw [hone, Option.or_none, ih hrest]
        simp [dictGet, hkp]

theorem finalFs_write_last (dir : String) (t : Nat) :
    ∀ buffer : List Snapshot, (∀ snap ∈ buffer, (snap.map Prod.fst).Nodup) →
      ∀ p, finalFs (write_order_book_csv dir t buffer) ⟨dir, p, t⟩ =
        (lastSnapshotOb p buffer).map (fileRows t) := by
  intro buffer
  induction buffer using List.reverseRecOn with
  | nil => intro _ p; rfl
  | append_singleton buffer snap ih =>
      intro hnod p
      have hw : write_order_book_csv dir t (buffer ++ [snap]) =
          write_order_book_csv dir t buffer ++ write_order_book_csv dir t [snap] := by
        simp [write_order_book_csv]
      rw [hw, finalFs_append,
        finalFs_write_single dir t p snap (hnod snap (by simp)),
        ih (fun s hs => hnod s (by simp [hs])) p]
      unfold lastSnapshotOb
      rw [List.filterMap_append]
      cases hg : dictGet p snap with
      | some ob => simp [hg, List.getLast?_concat]
      | none => simp [hg]

theorem prepared_stamp (t : Nat) (ot : String) (e : Entry)
    (hp : entry_plain e = true) (cells : List Cell)
    (h : prepare_order_book_row t e ot = some cells) :
    cells.head? = some (Cell.date t) ∧ ∀ u, Cell.date u ∈ cells → u = t := by
  cases e with
  | other s => exact absurd h (by simp [prepare_order_book_row])
  | fields xs =>
      simp only [prepare_order_book_row, Option.some.injEq] at h
      subst h
      refine ⟨rfl, ?_⟩
      intro u hu
      rcases List.mem_cons.mp hu with h1 | h1
      · injection h1
      · rcases List.mem_cons.mp h1 with h2 | h2
        · exact absurd h2 (by simp)
        · have hall := List.all_eq_true.mp (by simpa [entry_plain] using hp)
          have := hall (Cell.date u) h2
          simp [plain_cell] at this

theorem fileRows_stamp (t : Nat) (ob : OrderBook) (h : plain_entries ob) :
    ∀ row ∈ fileRows t ob, ∀ cells, row = some cells →
      cells.head? = some (Cell.date t) ∧ ∀ u, Cell.date u ∈ cells → u = t := by
  intro row hrow cells hcells
  rcases List.mem_append.mp hrow with hb | ha
  · obtain ⟨e, he, heq⟩ := List.mem_map.mp hb
    exact prepared_stamp t "b" e (h e (List.mem_append.mpr (Or.inl he))) cells
      (heq.trans hcells)
  · obtain ⟨e, he, heq⟩ := List.mem_map.mp ha
    exact prepared_stamp t "a" e (h e (List.mem_append.mpr (Or.inr he))) cells
      (heq.trans hcells)

/-- C9.  During a flush at current time `t`: every file written carries the
flush time in its name; every row of every buffered snapshot is stamped with
the flush-time isoformat as its first cell, and (when the exchange data
itself contains no dates) no other scrape time appears in any row; and
because each snapshot reopens the same per-product path with mode `'w'`,
the final content of a product's file is the prepared rows of the *last*
buffered snapshot containing that product. -/
theorem flush_time_stamping (dir : String) (t : Nat) (buffer : List Snapshot) :
    (∀ ev ∈ write_order_book_csv dir t buffer, (ev.1).time = t) ∧
    ((∀ snap ∈ buffer, ∀ pb ∈ snap, plain_entries pb.2) →
      ∀ ev ∈ write_order_book_csv dir t buffer, ∀ row ∈ ev.2, ∀ cells,
        row = some cells →
        cells.head? = some (Cell.date t) ∧ ∀ u, Cell.date u ∈ cells → u = t) ∧
    ((∀ snap ∈ buffer, (snap.map Prod.fst).Nodup) →
      ∀ p, finalFs (write_order_book_csv dir t buffer) ⟨dir, p, t⟩ =
        (lastSnapshotOb p buffer).map (fileRows t)) := by
  refine ⟨?_, ?_, fun h p => finalFs_write_last dir t buffer h p⟩
  · intro ev hev
    simp only [write_order_book_csv, List.mem_flatMap, List.mem_map] at hev
    obtain ⟨snap, _, pb, _, heq⟩ := hev
    rw [← heq]
  · intro hplain ev hev row hrow cells hcells
    simp only [write_order_book_csv, List.mem_flatMap, List.mem_map] at hev
    obtain ⟨snap, hsnap, pb, hpb, heq⟩ := hev
    rw [← heq] at hrow
    exact fileRows_stamp t pb.2 (hplain snap hsnap pb hpb) row hrow cells hcells

/-- Witness for C9 on the sample buffer: the bid row is stamped with the
flush time 7, and the final file content is the last (only) snapshot's
rows. -/
theorem flush_time_stamping_witness :
    ([Cell.date 7, Cell.str "b", Cell.str "6500.01", Cell.str "1.2",
        Cell.str "3"] : List Cell).head? = some (Cell.date 7) ∧
    finalFs (write_order_book_csv "data" 7 sampleBuffer) ⟨"data", "BTC-USD", 7⟩ =
      (lastSnapshotOb "BTC-USD" sampleBuffer).map (fileRows 7) := by
  obtain ⟨h1, h2, h3⟩ := flush_time_stamping "data" 7 sampleBuffer
  exact ⟨(h2 (by decide) (⟨"data", "BTC-USD", 7⟩, fileRows 7 sampleOrderBook)
      (by decide)
      (some [Cell.date 7, Cell.str "b", Cell.str "6500.01", Cell.str "1.2",
        Cell.str "3"]) (by decide)
      [Cell.date 7, Cell.str "b", Cell.str "6500.01", Cell.str "1.2",
        Cell.str "3"] rfl).1,
    h3 (by decide) "BTC-USD"⟩

/-! ## C1: what a flush leaves in the per-product file -/

/-- C1, evaluated at the failing input.  The fifth successful iteration
triggers the flush (the buffer holds `SCRAPES_PER_CSV` snapshots, `snapA`
among them), yet the CSV file this flush leaves for BTC-USD holds only the
prepared rows of the last buffered snapshot: `snapA`'s prepared bid row is a
prepared row of a buffered snapshot but is absent from the file, because
every buffered snapshot is written to the same path with mode `'w'` and each
write truncates the previous one. -/
theorem flush_overwrites_earlier_snapshots :
    (run_iteration fetchB 100 preFlushState).1 = IterResult.success true ∧
    preFlushState.order_book_data.length + 1 = SCRAPES_PER_CSV ∧
    finalFs ((run_iteration fetchB 100 preFlushState).2.2)
        ⟨"data", "BTC-USD", 100⟩ = some (fileRows 100 obB) ∧
    prepare_order_book_row 100
        (Entry.fields [Cell.str "100.0", Cell.str "1.0", Cell.str "1"]) "b"
      ∈ fileRows 100 obA ∧
    prepare_order_book_row 100
        (Entry.fields [Cell.str "100.0", Cell.str "1.0", Cell.str "1"]) "b"
      ∉ fileRows 100 obB := by
  exact ⟨by decide, by decide, by decide, by decide, by decide⟩

/-! ## C7: per-product file placement and filename ordering -/

theorem decDigits_fuel :
    ∀ f1 f2 n, n < f1 → n < f2 → decDigits f1 n = decDigits f2 n := by
  intro f1
  induction f1 with
  | zero => intro f2 n h1 _; omega
  | succ g ih =>
      intro f2 n h1 h2
      cases f2 with
      | zero => omega
      | succ g' =>
          simp only [decDigits]
          by_cases h10 : n < 10
          · simp [h10]
          · have hd : n / 10 < n := Nat.div_lt_self (by omega) (by norm_num)
            simp only [if_neg h10]
            congr 1
            exact ih g' (n / 10) (by omega) (by omega)

theorem timeDigits_eq (n : Nat) :
    timeDigits n = if n < 10 then [n] else timeDigits (n / 10) ++ [n % 10] := by
  by_cases h10 : n < 10
  · simp [timeDigits, decDigits, h10]
  · have hd : n / 10 < n := Nat.div_lt_self (by omega) (by norm_num)
    simp only [timeDigits, decDigits, if_neg h10]
    congr 1
    exact decDigits_fuel n (n / 10 + 1) (n / 10) hd (Nat.lt_succ_self _)

theorem timeDigits_ne_nil (n : Nat) : timeDigits n ≠ [] := by
  rw [timeDigits_eq]
  by_cases h10 : n < 10 <;> simp [h10]

theorem digitsLt_append_right :
    ∀ (xs : List Nat) (u v : Nat), u < v →
      digitsLt (xs ++ [u]) (xs ++ [v]) = true := by
  intro xs
  induction xs with
  | nil => intro u v h; simp [digitsLt, h]
  | cons x xs ih => intro u v h; simp [digitsLt, ih u v h]

theorem digitsLt_append :
    ∀ (xs ys : List Nat) (u v : Nat), xs.length = ys.length →
      digitsLt xs ys = true → digitsLt (xs ++ [u]) (ys ++ [v]) = true := by
  intro xs
  induction xs with
  | nil =>
      intro ys u v hl h
      cases ys with
      | nil => simp [digitsLt] at h
      | cons y ys => simp at hl
  | cons x xs ih =>
      intro ys u v hl h
      cases ys with
      | nil => simp at hl
      | cons y ys =>
          simp only [digitsLt, Bool.or_eq_true, Bool.and_eq_true,
            decide_eq_true_eq] at h ⊢
          rcases h with h | ⟨he, hd⟩
          · exact Or.inl h
          · exact Or.inr ⟨he, ih ys u v (by simpa using hl) hd⟩

theorem timeDigits_lt :
    ∀ b a, a < b → (timeDigits a).length = (timeDigits b).length →
      digitsLt (timeDigits a) (timeDigits b) = true := by
  intro b
  induction b using Nat.strong_induction_on with
  | _ b ih =>
      intro a hab hlen
      by_cases hb10 : b < 10
      · have ha10 : a < 10 := by omega
        rw [timeDigits_eq a, timeDigits_eq b, if_pos ha10, if_pos hb10]
        simp [digitsLt, hab]
      · by_cases ha10 : a < 10
        · exfalso
          rw [timeDigits_eq a, timeDigits_eq b, if_pos ha10, if_neg hb10] at hlen
          have hne := timeDigits_ne_nil (b / 10)
          have hpos : 0 < (timeDigits (b / 10)).length :=
            List.length_pos.mpr hne
          simp only [List.length_append, List.length_cons, List.length_nil] at hlen
          omega
        · rw [timeDigits_eq a, timeDigits_eq b, if_neg ha10, if_neg hb10]
          rw [timeDigits_eq a, timeDigits_eq b, if_neg ha10, if_neg hb10] at hlen
          have hlen' : (timeDigits (a / 10)).length = (timeDigits (b / 10)).length := by
            simpa using hlen
          have hdiv : a / 10 ≤ b / 10 := Nat.div_le_div_right (le_of_lt hab)
          rcases eq_or_lt_of_le hdiv with heq | hlt
          · have ha' := Nat.div_add_mod a 10
            have hb' := Nat.div_add_mod b 10
            have hmod : a % 10 < b % 10 := by omega
            rw [heq]
            exact digitsLt_append_right _ _ _ hmod
          · have hd : b / 10 < b := Nat.div_lt_self (by omega) (by norm_num)
            exact digitsLt_append _ _ _ _ hlen' (ih (b / 10) hd (a / 10) hlt hlen')

/-- C7 (amended).  Each flush writes, for every product with buffered data,
exactly one CSV file, at the path `csv_directory/product/` with the current
iteration time as its name — a path is written if and only if it is
`⟨dir, product, t⟩` for a product present in some buffered snapshot — and
filenames of successive flushes sort chronologically *provided the two POSIX
timestamps have decimal representations of equal length* (true for all
times between 2001-09-09 and 2286-11-20). -/
theorem per_product_file_placement (dir : String) (t : Nat)
    (buffer : List Snapshot) :
    (∀ q, finalFs (write_order_book_csv dir t buffer) q ≠ none ↔
      ∃ snap ∈ buffer, ∃ pb ∈ snap, q = ⟨dir, pb.1, t⟩) ∧
    (∀ t1 t2 : Nat, t1 < t2 →
      (timeDigits t1).length = (timeDigits t2).length →
      digitsLt (timeDigits t1) (timeDigits t2) = true) := by
  constructor
  · intro q
    rw [finalFs_ne_none_iff]
    constructor
    · rintro ⟨ev, hev, heq⟩
      simp only [write_order_book_csv, List.mem_flatMap, List.mem_map] at hev
      obtain ⟨snap, hsnap, pb, hpb, hpe⟩ := hev
      exact ⟨snap, hsnap, pb, hpb, by rw [← heq, ← hpe]⟩
    · rintro ⟨snap, hsnap, pb, hpb, heq⟩
      refine ⟨(⟨dir, pb.1, t⟩, fileRows t pb.2), ?_, heq.symm⟩
      simp only [write_order_book_csv, List.mem_flatMap, List.mem_map]
      exact ⟨snap, hsnap, pb, hpb, rfl⟩
  · intro t1 t2 h hl
    exact timeDigits_lt t2 t1 h hl

/-- C7 counterexample: flushes at POSIX times 999999999 and 1000000000 name
their files by those timestamps, and the later flush's filename sorts
lexicographically *before* the earlier one's, so filenames of successive
flushes do not, in general, sort chronologically. -/
theorem filename_sort_counterexample :
    999999999 < 1000000000 ∧
    digitsLt (timeDigits 999999999) (timeDigits 1000000000) = false ∧
    digitsLt (timeDigits 1000000000) (timeDigits 999999999) = true :=
  ⟨by norm_num, by decide, by decide⟩

/-- Witness for C7 on the sample buffer and a pair of equal-length
timestamps. -/
theorem per_product_file_placement_witness :
    (finalFs (write_order_book_csv "data" 7 sampleBuffer)
        ⟨"data", "BTC-USD", 7⟩ ≠ none ↔
      ∃ snap ∈ sampleBuffer, ∃ pb ∈ snap,
        (⟨"data", "BTC-USD", 7⟩ : CsvPath) = ⟨"data", pb.1, 7⟩) ∧
    3 < 5 ∧ digitsLt (timeDigits 3) (timeDigits 5) = true := by
  obtain ⟨h1, h2⟩ := per_product_file_placement "data" 7 sampleBuffer
  exact ⟨h1 ⟨"data", "BTC-USD", 7⟩, by norm_num, h2 3 5 (by norm_num) (by decide)⟩
